import Mathlib

/-!
Verification of the spider task-workflow engine.

Shallow embedding of the TypeScript sources:
* `src/functions.ts` — `validateTaskGraph`, `getBufferType`, `fromSharedArrayBuffer`
* `src/main/functions.ts` — `initializeDependencies`, `updateDependencies`
* `src/main/lib/DependencyCounter.ts` — both `DependencyCounter` variants
* `src/main/lib/RunnerPool.ts` — `acquire`, `release`, `#dispatchPending`,
  `#terminateIdleRunners`, the `max`/`min` setters
* `src/main/api.ts` — the `executeWorkflow` initialisation phase and its
  message/yield loop

JavaScript runtime values are modelled explicitly where the code branches on
them: dependency values are either a scalar string (falsy iff empty) or a
group whose elements may be strings or arbitrary non-string values; typed
maps/objects become ordered association lists (JS object keys and `Map`
entries iterate in insertion order).
-/

namespace Spider

/-- A JavaScript runtime value appearing as a dependency-group element:
either a string or any non-string value (`typeof d === "string"` is the only
test the code performs on it). -/
inductive JsVal where
  | jstr (s : String)
  | jother
  deriving DecidableEq, Repr

/-- A dependency value stored under a dependency key in a descriptor:
a scalar task-id string (`dep`) or an array (`Array.isArray(dep)`).
A scalar is JS-falsy iff it is the empty string; an array is always truthy. -/
inductive DepVal where
  | single (id : String)
  | group (elems : List JsVal)
  deriving DecidableEq, Repr

/-- A task descriptor (`TaskDescriptor`): the `id` and `dependencies` fields.
`type` and `config` are never consulted by the validated/scheduled code paths
modelled here and are elided.  `dependencies` is `null` (`none`) or an object,
modelled as an association list in key-insertion order. -/
structure TaskDesc where
  id : String
  dependencies : Option (List (String × DepVal))
  deriving DecidableEq, Repr

/-- The validation error taxonomy of `src/errors.ts`.
`cyclicDependency id path` stores `path = [...stack, id]` exactly as the
`CyclicDependencyError` constructor does.  `modelStuck` is a model-only
constructor for the out-of-fuel case of the bounded recursion and for JS
`TypeError` crashes on `undefined`; no theorem below relies on it. -/
inductive ValidationError where
  | duplicateTask (id : String)
  | dependencyNotFound (id : String)
  | cyclicDependency (id : String) (path : List String)
  | modelStuck
  deriving DecidableEq, Repr

/-- Truthiness of `taskMap[id]` for the map built by `validateTaskGraph`. -/
def hasTask (taskMap : List TaskDesc) (id : String) : Bool :=
  taskMap.any (fun t => t.id == id)

/-- Lookup of `taskMap[id]`. -/
def findTask (taskMap : List TaskDesc) (id : String) : Option TaskDesc :=
  taskMap.find? (fun t => t.id == id)

/-- Measure of one dependency entry for the termination of the mutual DFS. -/
def depEntrySize : String × DepVal → Nat
  | (_, DepVal.single _) => 2
  | (_, DepVal.group es) => 2 + es.length

/-- Measure of a dependency list for the termination of the mutual DFS. -/
def depsSize (l : List (String × DepVal)) : Nat :=
  l.foldr (fun e n => depEntrySize e + n) 0

mutual

/-- The recursive `visit` closure of `validateTaskGraph`
(src/functions.ts:214-252).  `visited` is the mutable `visited` record and
`stack` the mutable `stack` array at the point of the call; a successful call
returns the new `visited` (the stack is popped back to its old value, so it
is not returned).  `fuel` bounds the recursion depth; it only decreases when
following an edge, and `validateTaskGraph` supplies more fuel than any chain
of distinct task ids can consume. -/
def visit (taskMap : List TaskDesc) :
    Nat → String → List String → List String → Except ValidationError (List String)
  | 0, _, _, _ => Except.error ValidationError.modelStuck
  | Nat.succ fuel, id, visited, stack =>
    if visited.contains id then
      Except.error (ValidationError.cyclicDependency id (stack ++ [id]))
    else
      match findTask taskMap id with
      | none => Except.error ValidationError.modelStuck
      | some task =>
        match task.dependencies with
        | none => Except.ok (visited ++ [id])
        | some deps => visitDeps taskMap fuel deps (visited ++ [id]) (stack ++ [id])
termination_by fuel _ _ _ => (fuel, 0)
decreasing_by all_goals simp [depsSize, depEntrySize, Prod.lex_iff]

/-- The `for (const key in deps)` loop of `visit`: each entry is a scalar
(`else` branch of `Array.isArray`) or a group.  A falsy scalar (`""`) is
skipped by `if (dep)`. -/
def visitDeps (taskMap : List TaskDesc) :
    Nat → List (String × DepVal) → List String → List String →
    Except ValidationError (List String)
  | _, [], visited, _ => Except.ok visited
  | fuel, (_, DepVal.single s) :: rest, visited, stack =>
    if s == "" then
      visitDeps taskMap fuel rest visited stack
    else if hasTask taskMap s then
      match visit taskMap fuel s visited stack with
      | Except.ok visited => visitDeps taskMap fuel rest visited stack
      | Except.error e => Except.error e
    else
      Except.error (ValidationError.dependencyNotFound s)
  | fuel, (_, DepVal.group es) :: rest, visited, stack =>
    match visitElems taskMap fuel es visited stack with
    | Except.ok visited => visitDeps taskMap fuel rest visited stack
    | Except.error e => Except.error e
termination_by fuel l _ _ => (fuel, depsSize l + 1)
decreasing_by all_goals simp [depsSize, depEntrySize, Prod.lex_iff] <;> try omega

/-- The `for (const d of dep)` loop over a dependency group: elements that
are not strings (`typeof d === "string"` fails) are skipped. -/
def visitElems (taskMap : List TaskDesc) :
    Nat → List JsVal → List String → List String →
    Except ValidationError (List String)
  | _, [], visited, _ => Except.ok visited
  | fuel, JsVal.jother :: rest, visited, stack => visitElems taskMap fuel rest visited stack
  | fuel, JsVal.jstr s :: rest, visited, stack =>
    if hasTask taskMap s then
      match visit taskMap fuel s visited stack with
      | Except.ok visited => visitElems taskMap fuel rest visited stack
      | Except.error e => Except.error e
    else
      Except.error (ValidationError.dependencyNotFound s)
termination_by fuel es _ _ => (fuel, es.length + 1)
decreasing_by all_goals simp [depsSize, depEntrySize, Prod.lex_iff]

end

/-- The first pass of `validateTaskGraph` (src/functions.ts:254-260):
build the task map, raising `DuplicateTaskError` on an id collision. -/
def buildTaskMap : List TaskDesc → List TaskDesc → Except ValidationError (List TaskDesc)
  | acc, [] => Except.ok acc
  | acc, t :: rest =>
    if hasTask acc t.id then Except.error (ValidationError.duplicateTask t.id)
    else buildTaskMap (acc ++ [t]) rest

/-- `validateTaskGraph` (src/functions.ts:207-265): first pass builds the
task map, second pass runs `visit` on every task in input order.  `visited`
persists across the top-level loop; `stack` is empty at each top-level call. -/
def validateTaskGraph (tasks : List TaskDesc) : Except ValidationError Unit :=
  match buildTaskMap [] tasks with
  | Except.error e => Except.error e
  | Except.ok taskMap =>
    match tasks.foldlM (fun visited t => visit taskMap (tasks.length + 1) t.id visited []) [] with
    | Except.ok _ => Except.ok ()
    | Except.error e => Except.error e

/-- Modelled from the spec: the dependency targets of a task, i.e. every
task id appearing as a scalar dependency value or as a string group element. -/
def specDepTargets (t : TaskDesc) : List String :=
  match t.dependencies with
  | none => []
  | some l =>
    l.foldr
      (fun kv acc =>
        match kv.2 with
        | DepVal.single s => s :: acc
        | DepVal.group es =>
          (es.filterMap (fun e => match e with | JsVal.jstr s => some s | JsVal.jother => none)) ++ acc)
      []

/-- Modelled from the spec: the dependency edges (task, target) of a graph. -/
def specEdges (tasks : List TaskDesc) : List (String × String) :=
  tasks.foldr (fun t acc => (specDepTargets t).map (fun s => (t.id, s)) ++ acc) []

/-- Modelled from the spec: the direct successors of a node. -/
def specSuccs (edges : List (String × String)) (x : String) : List String :=
  (edges.filter (fun e => e.1 == x)).map Prod.snd

/-- Modelled from the spec: nodes reachable from a frontier in at most `n`
further steps. -/
def specReach (edges : List (String × String)) : Nat → List String → List String
  | 0, front => front
  | Nat.succ n, front =>
    specReach edges n ((front ++ front.foldr (fun x acc => specSuccs edges x ++ acc) []).dedup)

/-- Modelled from the spec: the dependency graph has a cycle iff some task
reaches itself along at least one edge. -/
def specHasCycle (tasks : List TaskDesc) : Bool :=
  tasks.any (fun t =>
    (specReach (specEdges tasks) tasks.length
      (specSuccs (specEdges tasks) t.id)).contains t.id)

/-- Modelled from the spec: the descriptors have pairwise-distinct ids. -/
def specUniqueIds (tasks : List TaskDesc) : Bool :=
  (tasks.map TaskDesc.id).dedup == tasks.map TaskDesc.id

/-- Modelled from the spec: every dependency reference names a task in the
list. -/
def specAllRefsPresent (tasks : List TaskDesc) : Bool :=
  tasks.all (fun t => (specDepTargets t).all (fun s => tasks.any (fun u => u.id == s)))

/-- The two-task acyclic chain used to exercise `validateTaskGraph`:
`a` has no dependencies, `b` depends on `a` under key `"dep"`. -/
def chainTasks : List TaskDesc :=
  [⟨"a", none⟩, ⟨"b", some [("dep", DepVal.single "a")]⟩]

/-! ## DependencyCounter (src/main/lib/DependencyCounter.ts)

The file contains two variants of the class.  The second variant (the one
with the `constructor(deps)` that `executeWorkflow` invokes) is embedded as
the primary operations; the first variant differs only in `decrement`
(it stores `newCount - 1`) and in `get` (it defaults to 0), embedded as
`decrementFirstVariant` and `getFirstVariant`.  Counts are modelled as `Int`
because the first variant's `decrement` can store a negative number. -/

/-- The `#counts` map of `DependencyCounter`, in `Map` insertion order. -/
structure DependencyCounter where
  counts : List (String × Int)
  deriving DecidableEq, Repr

namespace DependencyCounter

/-- `Map.prototype.set` on an association list: replace in place, or append. -/
def setEntry : List (String × Int) → String → Int → List (String × Int)
  | [], id, n => [(id, n)]
  | (k, v) :: rest, id, n =>
    if k == id then (k, n) :: rest else (k, v) :: setEntry rest id n

/-- `get` of the second variant: `this.#counts.get(taskId)` (may be absent). -/
def get (c : DependencyCounter) (id : String) : Option Int :=
  List.lookup id c.counts

/-- `this.#counts.get(taskId) ?? 0`, as used by `increment` and `decrement`. -/
def getD (c : DependencyCounter) (id : String) : Int :=
  (c.get id).getD 0

/-- `set(taskId, count)`. -/
def set (c : DependencyCounter) (id : String) (n : Int) : DependencyCounter :=
  ⟨setEntry c.counts id n⟩

/-- `increment(taskId, count)`; call sites pass `count = 1` or `dep.length`. -/
def increment (c : DependencyCounter) (id : String) (n : Int) : DependencyCounter :=
  c.set id (c.getD id + n)

/-- `decrement(taskId)` of the second variant (lines 148-158): computes
`newCount = prev - 1`, throws if negative, stores `newCount`, returns it. -/
def decrement (c : DependencyCounter) (id : String) : Except String (Int × DependencyCounter) :=
  let prevCount := c.getD id
  let newCount := prevCount - 1
  if newCount < 0 then
    Except.error ("Dependency count for task " ++ id ++ " is already zero")
  else
    Except.ok (newCount, c.set id newCount)

/-- `decrement(taskId)` of the first variant (lines 41-51): identical except
that it stores `newCount - 1` while still returning `newCount`. -/
def decrementFirstVariant (c : DependencyCounter) (id : String) :
    Except String (Int × DependencyCounter) :=
  let prevCount := c.getD id
  let newCount := prevCount - 1
  if newCount < 0 then
    Except.error ("Dependency count for task " ++ id ++ " is already zero")
  else
    Except.ok (newCount, c.set id (newCount - 1))

/-- The `constructor(deps)` / `init(deps)` of the second variant: every given
id is set to 0. -/
def init (ids : List String) : DependencyCounter :=
  ⟨ids.map (fun i => (i, 0))⟩

/-- `entries()`. -/
def entries (c : DependencyCounter) : List (String × Int) :=
  c.counts

end DependencyCounter

/-! ## Scheduler dependency bookkeeping (src/main/functions.ts) -/

/-- The shape of a value of `task.dependencies[key]` (a `SharedArrayBuffer`
or an array of them).  Buffer contents are never consulted by
`initializeDependencies`/`updateDependencies`, only `Array.isArray` and
`length`, so only the shape is modelled.  Both constructors are JS-truthy;
an absent key is the only falsy case. -/
inductive TDep where
  | buf
  | bufs (n : Nat)
  deriving DecidableEq, Repr

/-- The internal `Task`: its `id` and its `dependencies` record (association
list in key order).  `type`, `config` and `output` are not consulted by the
functions modelled here and are elided. -/
structure STask where
  id : String
  dependencies : List (String × TDep)
  deriving DecidableEq, Repr

/-- The `dependents: Map<string, Set<string>>` map: insertion-ordered keys,
each with an insertion-ordered deduplicated member list. -/
abbrev Dependents := List (String × List String)

/-- `dependents.get(key)!.add(member)`.  `Map.get` on an absent key returns
`undefined` and the subsequent `.add` crashes with a `TypeError`; that crash
is modelled as an `Except.error`. -/
def addDependent (d : Dependents) (key member : String) : Except String Dependents :=
  if (List.lookup key d).isSome then
    Except.ok (d.map (fun kv =>
      if kv.1 == key then (kv.1, if kv.2.contains member then kv.2 else kv.2 ++ [member])
      else kv))
  else
    Except.error ("model: dependents map has no entry for " ++ key)

/-- `descriptor.dependencies![depKey][i]`, used by the group branches.  The
well-formed case (the key holds a group with a string at index `i`) returns
that string; every other case is a JS crash or a non-string value flowing
into a `Map` key, modelled as errors that no theorem below relies on. -/
def descriptorDepTarget (descriptor : TaskDesc) (depKey : String) (i : Nat) :
    Except String String :=
  match descriptor.dependencies with
  | none => Except.error "model: descriptor dependencies are null"
  | some l =>
    match List.lookup depKey l with
    | some (DepVal.group es) =>
      match es[i]? with
      | some (JsVal.jstr s) => Except.ok s
      | some JsVal.jother => Except.error "model: non-string dependency target"
      | none => Except.error "model: dependency index out of range"
    | some (DepVal.single _) => Except.error "model: indexing into a scalar dependency"
    | none => Except.error "model: descriptor missing dependency key"

/-- `initializeDependencies` (src/main/functions.ts:57-88).  Iterates the
descriptor's dependency keys; a key missing from `task.dependencies` throws;
a group increments the task's count by its length and adds the task to the
dependents set of each group element read from the descriptor; a scalar
increments by one and adds the task to `dependents.get(depKey)` — the KEY,
not the scalar value. -/
def initializeDependencies (task : STask) (descriptor : TaskDesc)
    (dependencyCounter : DependencyCounter) (dependents : Dependents) :
    Except String (DependencyCounter × Dependents) :=
  let depKeys := match descriptor.dependencies with
    | some l => l.map Prod.fst
    | none => []
  depKeys.foldlM (fun (acc : DependencyCounter × Dependents) depKey => do
    let (counter, deps) := acc
    match List.lookup depKey task.dependencies with
    | none =>
      Except.error ("Task \"" ++ task.id ++ "\" is missing a dependency for key \"" ++
        depKey ++ "\"")
    | some (TDep.bufs n) =>
      let counter := counter.increment task.id (Int.ofNat n)
      let deps ← (List.range n).foldlM (fun ds i => do
        let depTaskId ← descriptorDepTarget descriptor depKey i
        addDependent ds depTaskId task.id) deps
      pure (counter, deps)
    | some TDep.buf =>
      let counter := counter.increment task.id 1
      let deps ← addDependent deps depKey task.id
      pure (counter, deps)) (dependencyCounter, dependents)

/-- One `dependencyCounter.decrement(id)` followed by the
`if (newCount === 0) taskReadiness.get(id)!.resolve()` pattern; the fired
readiness gates are accumulated in a list. -/
def decrementAndFire (counter : DependencyCounter) (fired : List String) (id : String) :
    Except String (DependencyCounter × List String) := do
  let (newCount, counter) ← counter.decrement id
  pure (counter, if newCount = 0 then fired ++ [id] else fired)

/-- `updateDependencies` (src/main/functions.ts:103-143).  First loop:
for every key of the finished task's own descriptor dependencies, decrement
the counter of the referenced dependency targets (the group elements, or —
`Array.isArray` being false for both a scalar buffer and `undefined` — the
KEY itself).  Second loop: decrement every member of
`dependents.get(task.id)` once.  Returns the new counter and the readiness
gates fired, in firing order. -/
def updateDependencies (task : STask) (descriptor : TaskDesc)
    (dependencyCounter : DependencyCounter) (dependents : Dependents) :
    Except String (DependencyCounter × List String) := do
  let depKeys := match descriptor.dependencies with
    | some l => l.map Prod.fst
    | none => []
  let (counter, fired) ← depKeys.foldlM
    (fun (acc : DependencyCounter × List String) depKey => do
      let (counter, fired) := acc
      match List.lookup depKey task.dependencies with
      | some (TDep.bufs n) =>
        (List.range n).foldlM (fun (acc2 : DependencyCounter × List String) i => do
          let (c, f) := acc2
          let depTaskId ← descriptorDepTarget descriptor depKey i
          decrementAndFire c f depTaskId) (counter, fired)
      | _ =>
        decrementAndFire counter fired depKey) (dependencyCounter, [])
  match List.lookup task.id dependents with
  | none => Except.error ("model: dependents map has no entry for " ++ task.id)
  | some ds => ds.foldlM (fun (acc : DependencyCounter × List String) dependent => do
      let (c, f) := acc
      decrementAndFire c f dependent) (counter, fired)

/-! ## executeWorkflow (src/main/api.ts, src/unnamed/part_000) -/

/-- The initialisation phase of `executeWorkflow` (api.ts lines 63-100):
construct the counter from the task key set, then — for each task in order —
seed its dependents entry and run `initializeDependencies`, and finally fail
with `"Unable to execute workflow without initial tasks"` when no counter
entry is 0. -/
def executeWorkflowInit (tasks : List (STask × TaskDesc)) :
    Except String (DependencyCounter × Dependents) := do
  let ids := tasks.map (fun t => t.1.id)
  let counter0 := DependencyCounter.init ids
  let (counter, dependents) ← tasks.foldlM
    (fun (acc : DependencyCounter × Dependents) t =>
      initializeDependencies t.1 t.2 acc.1 (acc.2 ++ [(t.1.id, [])])) (counter0, [])
  let initialTasks := (counter.entries.filter (fun e => e.2 == 0)).map Prod.fst
  if initialTasks.isEmpty then
    Except.error "Unable to execute workflow without initial tasks"
  else
    pure (counter, dependents)

/-- A task result message as observed by the stream loop: its `id` and its
`ok` flag (`isErrorResponse` is `ok === false`).  Payload buffers are not
consulted by the loop's control flow and are elided. -/
structure TaskMsg where
  id : String
  ok : Bool
  deriving DecidableEq, Repr

/-- An event yielded by `executeWorkflow`: an intermediate
`{finish: false, payload: {taskId, …}}` event or the final
`{finish: true, payload: {results}}` event. -/
inductive WorkflowEvent where
  | intermediate (taskId : String)
  | final
  deriving DecidableEq, Repr

/-- The streaming loop of `executeWorkflow` (api.ts lines 185-217), as a
function of the sequence of loop-iteration observations.  Each list element
is one iteration of `while (deferredMessage !== null)`: the Bool is
`signal?.aborted` at the top of the iteration, and the `Except` is the
settlement of `await deferredMessage.promise` (`Except.error` when `reject`
rejected it; the `await` then throws out of the generator).  An empty list
means `deferredMessage` became `null` (all tasks done) and the loop exits.
Returns the yielded events and the terminal exception, if any.  The final
`yield {finish: true}` after the loop is unconditional, so it also runs when
the loop was left via `break` on abort or on an error response. -/
def workflowMessageLoop : List (Bool × Except String TaskMsg) →
    List WorkflowEvent × Option String
  | [] => ([WorkflowEvent.final], none)
  | (true, _) :: _ => ([WorkflowEvent.final], none)
  | (false, Except.error r) :: _ => ([], some r)
  | (false, Except.ok m) :: rest =>
    if m.ok = false then ([WorkflowEvent.final], none)
    else
      match workflowMessageLoop rest with
      | (evs, t) => (WorkflowEvent.intermediate m.id :: evs, t)

/-! ## RunnerPool (src/main/lib/RunnerPool.ts) -/

/-- The pool state: `#runners`, `#idleRunners` and `#pending` in queue order,
the `min`/`max` options, and a fresh-id source standing for `new Worker(…)`.
Runners are identified by numbers; pending acquires are identified by the
number labelling their deferred. -/
structure RunnerPool where
  runners : List Nat
  idleRunners : List Nat
  pending : List Nat
  min : Nat
  max : Nat
  nextId : Nat
  deriving DecidableEq, Repr

/-- The result of `acquire`: an immediately resolved runner, or a deferred
pushed onto `#pending`. -/
inductive AcquireResult where
  | runner (r : Nat)
  | queued
  deriving DecidableEq, Repr

namespace RunnerPool

/-- `acquire()` (lines 170-180): shift the idle queue if non-empty; else
create a new runner when `size < max` (the success path of `#createRunner
(false)`: the runner is pushed onto `#runners` but not onto `#idleRunners`);
else push a deferred onto `#pending`.  `w` labels the caller's deferred. -/
def acquire (p : RunnerPool) (w : Nat) : AcquireResult × RunnerPool :=
  match p.idleRunners with
  | r :: rest => (AcquireResult.runner r, { p with idleRunners := rest })
  | [] =>
    if p.runners.length < p.max then
      (AcquireResult.runner p.nextId,
        { p with runners := p.runners ++ [p.nextId], nextId := p.nextId + 1 })
    else
      (AcquireResult.queued, { p with pending := p.pending ++ [w] })

/-- `release(runner)` followed by `#dispatchPending()` (lines 187-194 and
276-285): throw if the runner is not in `#runners`; push it onto the idle
queue; then, when both `#pending` and the idle queue are non-empty, shift one
deferred and one idle runner and hand the runner over.  Returns the served
(waiter, runner) pair, if any. -/
def release (p : RunnerPool) (r : Nat) : Except String (Option (Nat × Nat) × RunnerPool) :=
  if p.runners.contains r then
    match p.pending, p.idleRunners ++ [r] with
    | w :: ws, x :: xs => Except.ok (some (w, x), { p with idleRunners := xs, pending := ws })
    | [], idle => Except.ok (none, { p with idleRunners := idle })
    | _ :: _, [] => Except.error "model: unreachable, idle queue is non-empty"
  else
    Except.error "The runner is not part of the pool"

/-- A sequence of `release` calls, collecting the (waiter, runner) pairs
served by `#dispatchPending` in order. -/
def releaseAll (p : RunnerPool) : List Nat → Except String (List (Nat × Nat) × RunnerPool)
  | [] => Except.ok ([], p)
  | r :: rs => do
    let (served, p) ← p.release r
    let (pairs, p) ← releaseAll p rs
    pure (served.toList ++ pairs, p)

/-- `#terminateIdleRunners()` (lines 216-226): terminate ALL idle runners,
remove them from `#runners`, and clear the idle queue. -/
def terminateIdleRunners (p : RunnerPool) : RunnerPool :=
  { p with
    runners := p.runners.filter (fun r => !(p.idleRunners.contains r))
    idleRunners := [] }

/-- The `max` setter (lines 124-143): validate `value`, store it, and call
`#terminateIdleRunners` when `#runners.length` exceeds the new maximum.
The `typeof`/`Number.isInteger` guards are vacuous for a `Nat` argument;
`value <= 0` is `value = 0`. -/
def setMax (p : RunnerPool) (value : Nat) : Except String RunnerPool :=
  if value = 0 then
    Except.error "The maximum number of runners must be greater than 0"
  else if value < p.min then
    Except.error "The maximum number of runners cannot be less than the minimum number of runners"
  else
    let p := { p with max := value }
    if p.runners.length > p.max then Except.ok p.terminateIdleRunners
    else Except.ok p

end RunnerPool

/-! ## Buffer type tags (src/functions.ts) -/

/-- The eleven concrete typed-array kinds distinguished by `getBufferType`.
In JS none of these constructors is an `instanceof` another (in particular
`Uint8ClampedArray` is not a subclass of `Uint8Array`), so the `instanceof`
chain is a disjoint case analysis on the kind. -/
inductive BufferKind where
  | float32 | float64 | int8 | int16 | int32
  | uint8 | uint16 | uint32 | uint8Clamped | bigint64 | biguint64
  deriving DecidableEq, Repr

/-- `getBufferType` (src/functions.ts:108-138): the kind-to-tag mapping. -/
def getBufferType : BufferKind → String
  | BufferKind.float32 => "float32"
  | BufferKind.float64 => "float64"
  | BufferKind.int8 => "int8"
  | BufferKind.int16 => "int16"
  | BufferKind.int32 => "int32"
  | BufferKind.uint8 => "uint8"
  | BufferKind.uint16 => "uint16"
  | BufferKind.uint32 => "uint32"
  | BufferKind.uint8Clamped => "uint8_clamped"
  | BufferKind.bigint64 => "bigint64"
  | BufferKind.biguint64 => "biguint64"

/-- `fromSharedArrayBuffer` (src/functions.ts:150-183): the tag-to-kind
switch; the `default` branch throws.  The buffer argument plays no role in
which kind is constructed and is elided. -/
def fromSharedArrayBuffer (type : String) : Except String BufferKind :=
  match type with
  | "float32" => Except.ok BufferKind.float32
  | "float64" => Except.ok BufferKind.float64
  | "int8" => Except.ok BufferKind.int8
  | "int16" => Except.ok BufferKind.int16
  | "int32" => Except.ok BufferKind.int32
  | "uint8" => Except.ok BufferKind.uint8
  | "uint16" => Except.ok BufferKind.uint16
  | "uint32" => Except.ok BufferKind.uint32
  | "uint8_clamped" => Except.ok BufferKind.uint8Clamped
  | "bigint64" => Except.ok BufferKind.bigint64
  | "biguint64" => Except.ok BufferKind.biguint64
  | t => Except.error ("Unsupported buffer type: \"" ++ t ++ "\"")

/-- The enumerated buffer-type tag strings. -/
def bufferTypeTags : List String :=
  ["float32", "float64", "int8", "int16", "int32", "uint8", "uint16", "uint32",
    "uint8_clamped", "bigint64", "biguint64"]

/-! ## Theorems -/

/-- C1: the claim states that `validateTaskGraph` succeeds iff the
descriptors have pairwise-distinct ids, no missing references and no cycle —
in particular on every acyclic graph, including a chain.  The code refutes
this: its `visited` record is never reset to a "black" state and the
top-level loop re-visits every task, so on the acyclic two-task chain
`a ← b` (unique ids, all references present, no cycle, as the spec-modelled
predicates confirm) it raises `CyclicDependencyError("a", ["b", "a"])`. -/
theorem validateTaskGraph_rejects_acyclic_chain :
    specUniqueIds chainTasks = true ∧ specAllRefsPresent chainTasks = true ∧
    specHasCycle chainTasks = false ∧
    validateTaskGraph chainTasks =
      Except.error (ValidationError.cyclicDependency "a" ["b", "a"]) := by
  refine ⟨rfl, rfl, rfl, ?_⟩
  simp [validateTaskGraph, buildTaskMap, chainTasks, visit, visitDeps, hasTask, findTask]
  rfl

/-- C2: the claim states that after an observed abort signal or a task error
response the stream ends with a terminal error and yields no further events,
in particular no `finish: true` event.  The code refutes the abort half: the
final `yield {finish: true}` sits after the `while` loop and also runs after
the abort `break`, so a run whose second iteration observes the aborted
signal still ends with the Final event and no terminal exception (first
conjunct).  The task-error half does hold: a rejection of the awaited
deferred throws out of the generator before the final yield (second
conjunct). -/
theorem executeWorkflow_final_after_abort :
    workflowMessageLoop [(false, Except.ok ⟨"t1", true⟩), (true, Except.ok ⟨"t2", true⟩)] =
      ([WorkflowEvent.intermediate "t1", WorkflowEvent.final], none) ∧
    workflowMessageLoop [(false, Except.error "boom")] = ([], some "boom") :=
  ⟨rfl, rfl⟩

/-- C3: the claim states that when a task finishes, `updateDependencies`
decrements exactly its dependents' counts (with multiplicity) and no other
task's count.  The code refutes this: its first loop decrements the counters
of the finished task's OWN dependency targets.  On the chain `a ← b`
(counter after initialisation: a ↦ 0, b ↦ 1): finishing `a` correctly
decrements its dependent `b` and fires its gate (first conjunct), but then
finishing `b` decrements the count of `a` — which is not a dependent of `b`
— and underflows, raising the structural-bug error (second conjunct). -/
theorem updateDependencies_underflow_on_chain :
    updateDependencies ⟨"a", []⟩ ⟨"a", none⟩ ⟨[("a", 0), ("b", 1)]⟩ [("a", ["b"]), ("b", [])] =
      Except.ok (⟨[("a", 0), ("b", 0)]⟩, ["b"]) ∧
    updateDependencies ⟨"b", [("a", TDep.buf)]⟩ ⟨"b", some [("a", DepVal.single "a")]⟩
        ⟨[("a", 0), ("b", 0)]⟩ [("a", ["b"]), ("b", [])] =
      Except.error "Dependency count for task a is already zero" :=
  ⟨rfl, rfl⟩

/-- C4: the claim states that after initialisation the dependents set of `S`
contains `T` iff `T` lists `S` as a dependency TARGET, the key playing no
role.  The code refutes the scalar half: for a scalar dependency
`{k: "a"}` of task `t`, `initializeDependencies` adds `t` to
`dependents.get("k")` — the KEY — which crashes because `"k"` is not a task
id, and `dependents("a")` never receives `t` (first conjunct).  The group
branch does use the target: `{k: ["a"]}` adds `t` to the set of `"a"`
(second conjunct). -/
theorem initializeDependencies_scalar_targets_key :
    initializeDependencies ⟨"t", [("k", TDep.buf)]⟩ ⟨"t", some [("k", DepVal.single "a")]⟩
        ⟨[("a", 0), ("t", 0)]⟩ [("a", []), ("t", [])] =
      Except.error "model: dependents map has no entry for k" ∧
    initializeDependencies ⟨"t", [("k", TDep.bufs 1)]⟩
        ⟨"t", some [("k", DepVal.group [JsVal.jstr "a"])]⟩
        ⟨[("a", 0), ("t", 0)]⟩ [("a", []), ("t", [])] =
      Except.ok (⟨[("a", 0), ("t", 1)]⟩, [("a", ["t"]), ("t", [])]) :=
  ⟨rfl, rfl⟩

/-- C5: the claim states that a successful `decrement` on a stored count `c`
returns `c - 1` and leaves the stored count at `c - 1`.  The first variant
of `DependencyCounter` refutes the stored-count half: on `c = 2` it returns
`1` but stores `newCount - 1 = 0`, so a subsequent `get` yields `0`, not `1`
(first two conjuncts).  The second variant — the one instantiated by
`executeWorkflow` — behaves as claimed (third conjunct). -/
theorem decrementFirstVariant_double_decrement :
    DependencyCounter.decrementFirstVariant ⟨[("a", 2)]⟩ "a" = Except.ok (1, ⟨[("a", 0)]⟩) ∧
    DependencyCounter.get ⟨[("a", 0)]⟩ "a" = some 0 ∧
    DependencyCounter.decrement ⟨[("a", 2)]⟩ "a" = Except.ok (1, ⟨[("a", 1)]⟩) :=
  ⟨rfl, rfl, rfl⟩

/-- C6 counterexample: the claim states that on a zero-task workflow
`executeWorkflow` immediately yields a single Final event with an empty
results object, without raising any error.  The code refutes this: with no
tasks there is no counter entry equal to 0, so the initialisation phase
throws `"Unable to execute workflow without initial tasks"` before anything
is yielded. -/
theorem executeWorkflowInit_empty_errors :
    executeWorkflowInit [] = Except.error "Unable to execute workflow without initial tasks" :=
  rfl

/-- C6 amended: for a workflow with zero tasks, validation passes, but
`executeWorkflow` raises the error `"Unable to execute workflow without
initial tasks"` instead of yielding a Final event. -/
theorem executeWorkflow_empty_tasks_amended :
    validateTaskGraph [] = Except.ok () ∧
    executeWorkflowInit [] = Except.error "Unable to execute workflow without initial tasks" :=
  ⟨rfl, rfl⟩

/-- C7: the claim states that the `min`/`max` setters preserve
`0 < min ≤ size ≤ max`, terminating idle runners only until `size ≤ max` and
never leaving fewer than `min` runners.  The code refutes this:
`#terminateIdleRunners` terminates ALL idle runners, so shrinking `max` from
4 to 3 on a pool of four idle runners with `min = 1` leaves zero runners —
three more terminations than needed and below `min` (the resulting size is
smaller than the pool's `min`). -/
theorem setMax_drops_below_min :
    RunnerPool.setMax ⟨[0, 1, 2, 3], [0, 1, 2, 3], [], 1, 4, 4⟩ 3 =
      Except.ok ⟨[], [], [], 1, 3, 4⟩ ∧
    (RunnerPool.mk [] [] [] 1 3 4).runners.length < (RunnerPool.mk [] [] [] 1 3 4).min :=
  ⟨rfl, by decide⟩

/-- C8: `acquire` returns the front of the idle queue when it is non-empty;
otherwise, when `size < max`, it creates and returns a fresh runner that is
not placed in the idle queue; otherwise it enqueues the caller at the back
of `#pending`; and a sequence of `release` calls serves the pending waiters
strictly in FIFO order (the k-th release hands its runner to the k-th queued
waiter). -/
theorem acquire_release_fifo :
    (∀ (p : RunnerPool) (w r : Nat) (rest : List Nat), p.idleRunners = r :: rest →
        p.acquire w = (AcquireResult.runner r, { p with idleRunners := rest })) ∧
    (∀ (p : RunnerPool) (w : Nat), p.idleRunners = [] → p.runners.length < p.max →
        (∀ x ∈ p.runners, x < p.nextId) →
        p.acquire w = (AcquireResult.runner p.nextId,
          { p with runners := p.runners ++ [p.nextId], nextId := p.nextId + 1 }) ∧
        p.nextId ∉ p.runners) ∧
    (∀ (p : RunnerPool) (w : Nat), p.idleRunners = [] → ¬ p.runners.length < p.max →
        p.acquire w = (AcquireResult.queued, { p with pending := p.pending ++ [w] })) ∧
    (∀ (p : RunnerPool) (rs : List Nat), p.idleRunners = [] →
        (∀ r ∈ rs, p.runners.contains r) → rs.length ≤ p.pending.length →
        RunnerPool.releaseAll p rs = Except.ok ((p.pending.take rs.length).zip rs,
          { p with pending := p.pending.drop rs.length })) := by
  refine ⟨?_, ?_, ?_, ?_⟩
  · intro p w r rest h
    simp [RunnerPool.acquire, h]
  · intro p w hidle hlt hfresh
    refine ⟨by simp [RunnerPool.acquire, hidle, hlt], fun hm => ?_⟩
    exact Nat.lt_irrefl _ (hfresh _ hm)
  · intro p w hidle hge
    simp [RunnerPool.acquire, hidle, hge]
  · intro p rs hidle hmem hlen
    induction rs generalizing p with
    | nil => simp [RunnerPool.releaseAll]
    | cons r rs ih =>
      obtain ⟨w, ws, hp⟩ : ∃ w ws, p.pending = w :: ws := by
        cases h : p.pending with
        | nil => rw [h] at hlen; simp at hlen
        | cons a b => exact ⟨a, b, rfl⟩
      simp only [RunnerPool.releaseAll, RunnerPool.release, hmem r (List.mem_cons_self r rs),
        if_pos, hidle, hp]
      simp only [List.nil_append, bind, Except.bind]
      rw [ih { p with idleRunners := [], pending := ws } rfl
        (fun x hx => hmem x (List.mem_cons_of_mem r hx))
        (by simp [hp] at hlen; simpa using hlen)]
      simp [hp]
      rfl

/-- C8 witness: the four parts of `acquire_release_fifo` instantiated at
concrete pools — an idle hit, a fresh creation below `max`, a queued acquire
at `max`, and two releases serving the two queued waiters in order. -/
theorem acquire_release_fifo_witness :
    RunnerPool.acquire ⟨[5, 6], [5], [], 1, 4, 7⟩ 0 =
      (AcquireResult.runner 5, ⟨[5, 6], [], [], 1, 4, 7⟩) ∧
    (RunnerPool.acquire ⟨[5, 6], [], [], 1, 4, 7⟩ 0 =
      (AcquireResult.runner 7, ⟨[5, 6, 7], [], [], 1, 4, 8⟩) ∧ (7 : Nat) ∉ [5, 6]) ∧
    RunnerPool.acquire ⟨[5, 6], [], [], 1, 2, 7⟩ 9 =
      (AcquireResult.queued, ⟨[5, 6], [], [9], 1, 2, 7⟩) ∧
    RunnerPool.releaseAll ⟨[5, 6], [], [8, 9], 1, 2, 7⟩ [6, 5] =
      Except.ok ([(8, 6), (9, 5)], ⟨[5, 6], [], [], 1, 2, 7⟩) :=
  ⟨acquire_release_fifo.1 ⟨[5, 6], [5], [], 1, 4, 7⟩ 0 5 [] rfl,
    acquire_release_fifo.2.1 ⟨[5, 6], [], [], 1, 4, 7⟩ 0 rfl (by decide) (by decide),
    acquire_release_fifo.2.2.1 ⟨[5, 6], [], [], 1, 2, 7⟩ 9 rfl (by decide),
    acquire_release_fifo.2.2.2 ⟨[5, 6], [], [8, 9], 1, 2, 7⟩ [6, 5] rfl (by decide) (by decide)⟩

/-- C9: the tag/kind mapping is a bijection over the eleven enumerated tags:
`fromSharedArrayBuffer` after `getBufferType` is the identity on kinds,
`getBufferType` after `fromSharedArrayBuffer` is the identity on each
enumerated tag, and the eleven tags are pairwise distinct. -/
theorem bufferTypeTag_bijection :
    (∀ k : BufferKind, fromSharedArrayBuffer (getBufferType k) = Except.ok k) ∧
    bufferTypeTags.all (fun t =>
      match fromSharedArrayBuffer t with
      | Except.ok k => getBufferType k == t
      | Except.error _ => false) = true ∧
    bufferTypeTags.Nodup := by
  refine ⟨fun k => ?_, rfl, by decide⟩
  cases k <;> rfl

/-- C10: a falsy (empty-string) scalar dependency reference and a non-string
group element are silently skipped by `validateTaskGraph`: processing such an
entry equals processing the remaining entries unchanged — no
`DependencyNotFoundError`, no `visit`, no state change (first two
conjuncts) — and a descriptor containing both (neither naming any task)
passes validation (third conjunct). -/
theorem validateTaskGraph_skips_falsy_and_nonstring_refs :
    (∀ (taskMap : List TaskDesc) (fuel : Nat) (k : String) (rest : List (String × DepVal))
        (visited stack : List String),
      visitDeps taskMap fuel ((k, DepVal.single "") :: rest) visited stack =
        visitDeps taskMap fuel rest visited stack) ∧
    (∀ (taskMap : List TaskDesc) (fuel : Nat) (es : List JsVal) (visited stack : List String),
      visitElems taskMap fuel (JsVal.jother :: es) visited stack =
        visitElems taskMap fuel es visited stack) ∧
    validateTaskGraph [⟨"a", some [("x", DepVal.single ""), ("y", DepVal.group [JsVal.jother])]⟩] =
      Except.ok () := by
  refine ⟨fun taskMap fuel k rest visited stack => by simp [visitDeps],
    fun taskMap fuel es visited stack => by simp [visitElems], ?_⟩
  simp [validateTaskGraph, buildTaskMap, visit, visitDeps, visitElems, hasTask, findTask]

end Spider
